import Mathlib

/-!
Shallow embedding of the release-identity and ingestion core of the
`tranny` repository (`tranny/datastore.py`, `tranny/provider/__init__.py`),
together with theorems checking the natural-language specification
against it.

Conventions used throughout:
* Python falsy/truthy tests are made explicit (`none`/empty string/zero
  are the falsy values that actually occur at the modelled call sites);
* a Python function that can raise is embedded with `Except PyError`;
* machine-level details that the claims do not touch (timestamps as
  floats, byte strings) are modelled with `Int` / `String`.
-/

/-- The Python exceptions that occur in the modelled code paths. -/
inductive PyError where
  | attributeError
  | typeError
  | valueError (msg : String)
  | otherError
deriving DecidableEq, Repr

/-- Python truthiness of a string: only the empty string is falsy. -/
def strTruthy (s : String) : Bool := !(s == "")

/-- Python truthiness of an optional string argument (`None` or a string). -/
def optStrTruthy : Option String → Bool
  | some s => strTruthy s
  | none => false

/-- Python truthiness of an optional integer argument (`None` or an int). -/
def optIntTruthy : Option Int → Bool
  | some i => !(i == 0)
  | none => false

/-- Embedding of Python's `str.lower()` (per-character lowering). -/
def pyLower (s : String) : String := ⟨s.data.map Char.toLower⟩

/-!
## Release key classifier (`tranny/datastore.py`, `generate_release_key`)

The parser module `tranny.parser` is an external collaborator of the
classifier.  Its three capabilities are taken as parameters, exactly as
the spec's parser contract lists them:
* `normalize(name) -> name`;
* `parse_release(name) -> canonical_name | falsy` (falsy is `none`);
* `parse_release_info(name) -> mapping | raises` — the mapping's keys
  range over season/episode/day/month/year, so it is embedded as a
  record of five optional fields (a missing key is `none`); a raise is
  `Except.error`.
-/

/-- The structured field mapping returned by `parse_release_info`:
each field is present (`some`) exactly when the corresponding key is in
the Python dict. -/
structure FieldMap where
  season : Option String
  episode : Option String
  day : Option String
  month : Option String
  year : Option String
deriving DecidableEq, Repr

/-- Python truthiness of the mapping: an empty dict is falsy. -/
def FieldMap.truthy (m : FieldMap) : Bool :=
  m.season.isSome || m.episode.isSome || m.day.isSome ||
    m.month.isSome || m.year.isSome

/-- `set(info.keys()) == set(["season", "episode"])` -/
def FieldMap.isTVSet (m : FieldMap) : Bool :=
  m.season.isSome && m.episode.isSome && m.day.isNone &&
    m.month.isNone && m.year.isNone

/-- `set(info.keys()) == set(["year", "day", "month"])` -/
def FieldMap.isDailySet (m : FieldMap) : Bool :=
  m.season.isNone && m.episode.isNone && m.day.isSome &&
    m.month.isSome && m.year.isSome

/-- `set(info.keys()) == set(["year"])` -/
def FieldMap.isMovieSet (m : FieldMap) : Bool :=
  m.season.isNone && m.episode.isNone && m.day.isNone &&
    m.month.isNone && m.year.isSome

/-- The parser collaborator (module `tranny.parser`). -/
structure Parser where
  normalize : String → String
  parse_release : String → Option String
  parse_release_info : String → Except PyError FieldMap

/-- The four release-key variants built by `generate_release_key`:
`BaseReleaseKey`, `TVReleaseKey`, `TVDailyReleaseKey`, `MovieReleaseKey`.
Each constructor stores the fields the corresponding Python `__init__`
stores (the `TVReleaseKey` call site always passes `year=None` and
`daily` is a constant per class, so those are dropped). -/
inductive ReleaseKey where
  | base (release_name name : String)
  | tv (release_name name season episode : String)
  | tvDaily (release_name name day month year : String)
  | movie (release_name name year : String)
deriving DecidableEq, Repr

/-- The `release_key` attribute: each subclass passes its formatted key
to `BaseReleaseKey.__init__` (`TV`: `"{}-{}_{}".format(name, season,
episode)`; `TVDaily`: `"{}-{}_{}_{}".format(name, year, month, day)`;
`Movie`: `"{}-{}".format(name, year)`; `Base`: the name itself). -/
def ReleaseKey.release_key : ReleaseKey → String
  | .base _ n => n
  | .tv _ n s e => n ++ "-" ++ s ++ "_" ++ e
  | .tvDaily _ n d m y => n ++ "-" ++ y ++ "_" ++ m ++ "_" ++ d
  | .movie _ n y => n ++ "-" ++ y

/-- The `name` attribute (the canonical name stored by every variant). -/
def ReleaseKey.canonical : ReleaseKey → String
  | .base _ n => n
  | .tv _ n _ _ => n
  | .tvDaily _ n _ _ _ => n
  | .movie _ n _ => n

/-- Embedding of `generate_release_key`.  `none` is the Python
`return False` for an unusable name.  The `except TypeError` arm and the
`finally: return release_info` (which swallows any other in-flight
exception and still returns) together absorb every failure of
`parse_release_info`, so both error kinds fall back to the base key. -/
def generate_release_key (p : Parser) (release_name : String) : Option ReleaseKey :=
  let rn := p.normalize release_name
  match p.parse_release rn with
  | none => none
  | some name0 =>
    if strTruthy name0 then
      let name := pyLower name0
      match p.parse_release_info rn with
      | .error _ => some (ReleaseKey.base rn name)
      | .ok info =>
        if info.truthy then
          match info with
          | ⟨some s, some e, none, none, none⟩ => some (ReleaseKey.tv rn name s e)
          | ⟨none, none, some d, some mo, some y⟩ => some (ReleaseKey.tvDaily rn name d mo y)
          | ⟨none, none, none, none, some y⟩ => some (ReleaseKey.movie rn name y)
          | _ => some (ReleaseKey.base rn name)
        else some (ReleaseKey.base rn name)
    else none

/-!
## Poll scheduler (`tranny/provider/__init__.py`, `find_matches`)

`find_matches` is a generator: `t0 = time()` and the gate run when the
cycle is triggered, `raise StopIteration` ends the generator with an
empty sequence, and on a passing gate `self.last_update = t0` executes
before the first `yield`.  The embedding returns the provider state
after the gate step together with the full yielded sequence; the state
component is computed before (and independently of) the fetched items,
which is how the "advanced before any item is consumed" ordering shows
up in a pure model.  `fetch_releases` is the abstract method a concrete
provider overrides, and each yielded torrent is paired with the
`Session()` created for the cycle.
-/

/-- Provider poll state: `enabled`, `last_update`, `interval`. -/
structure ProviderState where
  enabled : Bool
  last_update : Int
  interval : Int
deriving DecidableEq, Repr

/-- Embedding of `TorrentProvider.find_matches`, with the trigger time
`t0`, the fresh session and the overridden `fetch_releases` passed
explicitly. -/
def find_matches {α σ : Type} (self : ProviderState) (t0 : Int)
    (newSession : σ) (fetch_releases : σ → List α) :
    ProviderState × List (α × σ) :=
  let delta := t0 - self.last_update
  if !(decide (delta > self.interval)) || !self.enabled then
    (self, [])
  else
    ({ self with last_update := t0 },
      (fetch_releases newSession).map (fun torrent => (torrent, newSession)))

/-!
## Dedup oracle (`tranny/provider/__init__.py`, `exists`)

The persisted `Download` rows and the possibility that the query raises
are the persistence collaborator's side; the embedding takes the whole
query outcome (`.all()` on downloads filtered by `release_key`) source
table as an `Except`: `.ok rows` is a working session holding the
download table, `.error` is a session whose query raises.
-/

/-- A persisted `Download` row (the fields the core reads). -/
structure Download where
  release_key : String
  download_id : Int
  created_on : Int
deriving DecidableEq, Repr

/-- Result of `TorrentProvider.exists`: either the Python list returned
by `.all()` or the literal `False` returned from the `except` arm. -/
inductive ExistsResult where
  | found (rows : List Download)
  | falseLit
deriving DecidableEq, Repr

/-- Python truthiness of the result (`False` and `[]` are falsy, i.e.
"no duplicate found"). -/
def ExistsResult.falsy : ExistsResult → Bool
  | .falseLit => true
  | .found rows => rows.isEmpty

/-- Embedding of `TorrentProvider.exists`: filter the downloads by
exact equality of `release_key` with `"{}".format(release_key)` (the
string form of the key); any exception from the query is absorbed,
logged, and turned into `return False`. -/
def TorrentProvider.dedup_exists (sessionDownloads : Except PyError (List Download))
    (release_key : ReleaseKey) : ExistsResult :=
  match sessionDownloads with
  | .ok rows => .found (rows.filter (fun d => d.release_key == release_key.release_key))
  | .error _ => .falseLit

/-!
## Identity cache (`tranny/datastore.py`, `get_source`)

`cache_source` is a module-level `defaultdict(lambda: False)`: a lookup
of an absent name inserts and returns `False`.  A cache slot can
therefore hold `False` (auto-inserted), `None` (a stored query miss) or
a `Source` instance.  Sources are Python objects with identity, so the
embedding gives each created instance a fresh allocation number `inst`
drawn from an allocator counter.

Modelled from the spec: the persistence collaborator itself (the
SQLAlchemy engine and the `Session` configured in `tranny/app.py`, which
is not under `src/`) is embedded per the spec's persistence contract —
filter-by-field queries with `first()`/`all()` over the persisted rows,
and staged inserts (`session.add`) that are visible to subsequent
queries of the same session, which is what makes the spec's "idempotent
memoization" sentence meaningful for a source created and staged by the
first call.
-/

/-- A `Source` entity; `inst` models Python object identity (allocation
order), `source_id` is the database id (`None` until persisted). -/
structure Source where
  inst : Nat
  source_name : String
  source_id : Option Int
deriving DecidableEq, Repr

/-- The session: persisted rows plus rows staged with `session.add`. -/
structure PySession where
  persisted : List Source
  staged : List Source
deriving DecidableEq, Repr

/-- `session.add(source)` -/
def PySession.add (s : PySession) (src : Source) : PySession :=
  { s with staged := s.staged ++ [src] }

/-- `session.query(Source).filter_by(source_name=n).first()`. -/
def query_first_by_name (s : PySession) (n : String) : Option Source :=
  (s.persisted ++ s.staged).find? (fun x => x.source_name == n)

/-- `session.query(Source).filter_by(source_id=i).first()`. -/
def query_first_by_id (s : PySession) (i : Int) : Option Source :=
  (s.persisted ++ s.staged).find? (fun x => x.source_id == some i)

/-- `session.query(Source).all()`. -/
def query_all_sources (s : PySession) : List Source :=
  s.persisted ++ s.staged

/-- A value held in a `cache_source` slot. -/
inductive CacheVal where
  | falseV
  | noneV
  | src (s : Source)
deriving DecidableEq, Repr

/-- Python truthiness of a cache slot: only a `Source` is truthy. -/
def CacheVal.toSource : CacheVal → Option Source
  | .src s => some s
  | _ => none

/-- The `cache_source` mapping, as an insertion-ordered association
list (one entry per name). -/
abbrev SourceCache := List (String × CacheVal)

/-- `cache_source[name]` read on the defaultdict: an absent key inserts
`False` and returns it. -/
def cacheLookup (c : SourceCache) (n : String) : CacheVal × SourceCache :=
  match c.find? (fun p => p.1 == n) with
  | some p => (p.2, c)
  | none => (.falseV, c ++ [(n, .falseV)])

/-- `cache_source[name] = v` write. -/
def cacheStore (c : SourceCache) (n : String) (v : CacheVal) : SourceCache :=
  if c.any (fun p => p.1 == n) then
    c.map (fun p => if p.1 == n then (n, v) else p)
  else
    c ++ [(n, v)]

/-- The `for source in cache_source.values(): if source.source_id ==
source_id: break` scan.  A falsy slot (`False`/`None`) has no
`source_id` attribute, so reaching one raises `AttributeError`;
`.ok none` is the loop finishing without `break` (the `else:` arm
runs). -/
def scanCacheValues : List CacheVal → Int → Except PyError (Option Source)
  | [], _ => .ok none
  | v :: rest, i =>
    match v with
    | .src s => if s.source_id == some i then .ok (some s) else scanCacheValues rest i
    | _ => .error .attributeError

/-- Result of `get_source`: a single source or the `all()` list. -/
inductive GetSourceResult where
  | one (s : Source)
  | all (ss : List Source)
deriving DecidableEq, Repr

/-- Embedding of `get_source(session, source_name, source_id)`.  The
returned tuple carries the result together with the updated cache, the
allocator counter and the session.  In the id branch, when the query
misses (`first()` returns `None`) the statement
`cache_source[source.source_name] = source` dereferences `None` and
raises `AttributeError`; the trailing `elif not source: raise
ValueError("Invalid source name")` is kept where the code has it (it is
only reachable with a falsy `source` after the branches). -/
def get_source (cache : SourceCache) (alloc : Nat) (session : PySession)
    (source_name : Option String) (source_id : Option Int) :
    Except PyError (GetSourceResult × SourceCache × Nat × PySession) :=
  if optStrTruthy source_name then
    let name := source_name.getD ""
    let looked := cacheLookup cache name
    let step : Option Source × SourceCache :=
      match looked.1.toSource with
      | some s => (some s, looked.2)
      | none =>
        match query_first_by_name session name with
        | some s => (some s, cacheStore looked.2 name (.src s))
        | none => (none, cacheStore looked.2 name .noneV)
    match step.1 with
    | some s => .ok (.one s, step.2, alloc, session)
    | none =>
      let newSrc : Source := ⟨alloc, name, none⟩
      .ok (.one newSrc, step.2, alloc + 1, session.add newSrc)
  else if optIntTruthy source_id then
    let i := source_id.getD 0
    match scanCacheValues (cache.map (fun p => p.2)) i with
    | .error e => .error e
    | .ok (some s) => .ok (.one s, cache, alloc, session)
    | .ok none =>
      match query_first_by_id session i with
      | some s => .ok (.one s, cacheStore cache s.source_name (.src s), alloc, session)
      | none => .error .attributeError
  else
    .ok (.all (query_all_sources session), cache, alloc, session)

/-!
## `fetch_download` (`tranny/datastore.py`)

In the `release_key` branch the code reads
`session.query(Download).query` — the query capability's surface (per
the spec's persistence contract: filter-by-field, `first`/`all`,
ordered/limited retrieval) has no attribute named `query`, so the
attribute access raises `AttributeError` before any filter is applied.
`limit(None)` means "no limit".
-/

/-- Result of `fetch_download`: a single optional row or a list. -/
inductive FetchDownloadResult where
  | one (d : Option Download)
  | many (ds : List Download)
deriving DecidableEq, Repr

/-- `.limit(limit)` with a possibly absent limit. -/
def applyLimit (limit : Option Nat) (rows : List Download) : List Download :=
  match limit with
  | some k => rows.take k
  | none => rows

/-- Embedding of `fetch_download(session, release_key, download_id,
limit)` over the download table held by the session. -/
def fetch_download (downloads : List Download) (release_key : Option String)
    (download_id : Option Int) (limit : Option Nat) :
    Except PyError FetchDownloadResult :=
  if optStrTruthy release_key then
    .error .attributeError
  else if optIntTruthy download_id then
    .ok (.one ((downloads.filter
      (fun d => some d.download_id == download_id)).head?))
  else
    .ok (.many (applyLimit limit
      (downloads.mergeSort (fun a b => decide (a.created_on ≥ b.created_on)))))

/-!
## Theorems
-/

/-- C1: for every raw name whose normalization and parse yield a
canonical name `N` (the lowercased parsed short name) and whose
structured field-set is exactly season/episode, `generate_release_key`
returns the TV variant with key `N-season_episode`; for exactly
year/day/month it returns the daily variant with key
`N-year_month_day`; for exactly year it returns the movie variant with
key `N-year`. -/
theorem classify_exact_field_sets (p : Parser) (x n0 : String)
    (hname : p.parse_release (p.normalize x) = some n0)
    (htruthy : strTruthy n0 = true) :
    (∀ s e, p.parse_release_info (p.normalize x) = .ok ⟨some s, some e, none, none, none⟩ →
      generate_release_key p x
          = some (ReleaseKey.tv (p.normalize x) (pyLower n0) s e) ∧
        (ReleaseKey.tv (p.normalize x) (pyLower n0) s e).release_key
          = pyLower n0 ++ "-" ++ s ++ "_" ++ e) ∧
    (∀ d mo y, p.parse_release_info (p.normalize x) = .ok ⟨none, none, some d, some mo, some y⟩ →
      generate_release_key p x
          = some (ReleaseKey.tvDaily (p.normalize x) (pyLower n0) d mo y) ∧
        (ReleaseKey.tvDaily (p.normalize x) (pyLower n0) d mo y).release_key
          = pyLower n0 ++ "-" ++ y ++ "_" ++ mo ++ "_" ++ d) ∧
    (∀ y, p.parse_release_info (p.normalize x) = .ok ⟨none, none, none, none, some y⟩ →
      generate_release_key p x
          = some (ReleaseKey.movie (p.normalize x) (pyLower n0) y) ∧
        (ReleaseKey.movie (p.normalize x) (pyLower n0) y).release_key
          = pyLower n0 ++ "-" ++ y) := by
  refine ⟨fun s e hinfo => ?_, fun d mo y hinfo => ?_, fun y hinfo => ?_⟩ <;>
    simp [generate_release_key, hname, htruthy, hinfo, FieldMap.truthy,
      ReleaseKey.release_key]

/-- Concrete parsers exercising the three exact field-sets. -/
def parserTVFields : Parser :=
  ⟨fun s => s, fun _ => some "The.Show",
    fun _ => .ok ⟨some "3", some "9", none, none, none⟩⟩

def parserDailyFields : Parser :=
  ⟨fun s => s, fun _ => some "Show",
    fun _ => .ok ⟨none, none, some "21", some "7", some "2014"⟩⟩

def parserMovieFields : Parser :=
  ⟨fun s => s, fun _ => some "Film",
    fun _ => .ok ⟨none, none, none, none, some "1999"⟩⟩

/-- C1 witness: the three exact field-sets at concrete inputs. -/
theorem classify_exact_field_sets_witness :
    generate_release_key parserTVFields "raw1"
        = some (ReleaseKey.tv "raw1" "the.show" "3" "9") ∧
      (ReleaseKey.tv "raw1" "the.show" "3" "9").release_key = "the.show-3_9" ∧
    generate_release_key parserDailyFields "raw2"
        = some (ReleaseKey.tvDaily "raw2" "show" "21" "7" "2014") ∧
      (ReleaseKey.tvDaily "raw2" "show" "21" "7" "2014").release_key = "show-2014_7_21" ∧
    generate_release_key parserMovieFields "raw3"
        = some (ReleaseKey.movie "raw3" "film" "1999") ∧
      (ReleaseKey.movie "raw3" "film" "1999").release_key = "film-1999" := by
  have h1 := (classify_exact_field_sets parserTVFields "raw1" "The.Show"
    rfl (by decide)).1 "3" "9" rfl
  have h2 := (classify_exact_field_sets parserDailyFields "raw2" "Show"
    rfl (by decide)).2.1 "21" "7" "2014" rfl
  have h3 := (classify_exact_field_sets parserMovieFields "raw3" "Film"
    rfl (by decide)).2.2 "1999" rfl
  refine ⟨h1.1, by decide, h2.1, by decide, h3.1, by decide⟩

/-- C4: for every raw name whose parsed field-set is anything other
than exactly season/episode, exactly year/day/month or exactly year —
including the empty set, partial sets and supersets — the classifier
returns the base variant, whose key equals the canonical name, the
extra fields being discarded. -/
theorem classify_other_field_sets_base (p : Parser) (x n0 : String) (m : FieldMap)
    (hname : p.parse_release (p.normalize x) = some n0)
    (htruthy : strTruthy n0 = true)
    (hinfo : p.parse_release_info (p.normalize x) = .ok m)
    (hTV : m.isTVSet = false) (hDaily : m.isDailySet = false)
    (hMovie : m.isMovieSet = false) :
    generate_release_key p x = some (ReleaseKey.base (p.normalize x) (pyLower n0)) ∧
    (ReleaseKey.base (p.normalize x) (pyLower n0)).release_key = pyLower n0 := by
  obtain ⟨s, e, d, mo, y⟩ := m
  cases s <;> cases e <;> cases d <;> cases mo <;> cases y <;>
    simp_all [generate_release_key, hname, htruthy, FieldMap.truthy,
      FieldMap.isTVSet, FieldMap.isDailySet, FieldMap.isMovieSet,
      ReleaseKey.release_key]

/-- A parser producing the superset field-set season/episode/year. -/
def parserSupersetFields : Parser :=
  ⟨fun s => s, fun _ => some "Show",
    fun _ => .ok ⟨some "3", some "9", none, none, some "2014"⟩⟩

/-- C4 witness: the superset season/episode/year falls through to the
base variant at a concrete input. -/
theorem classify_other_field_sets_base_witness :
    generate_release_key parserSupersetFields "raw4"
        = some (ReleaseKey.base "raw4" "show") ∧
      (ReleaseKey.base "raw4" "show").release_key = "show" :=
  classify_other_field_sets_base parserSupersetFields "raw4" "Show"
    ⟨some "3", some "9", none, none, some "2014"⟩
    rfl (by decide) rfl (by decide) (by decide) (by decide)

/-- Proof helper: the classifier body as a function of the normalized
name and the parser's two outputs. -/
def classifyOutputs (rn : String) (pr : Option String)
    (pri : Except PyError FieldMap) : Option ReleaseKey :=
  match pr with
  | none => none
  | some name0 =>
    if strTruthy name0 then
      let name := pyLower name0
      match pri with
      | .error _ => some (ReleaseKey.base rn name)
      | .ok info =>
        if info.truthy then
          match info with
          | ⟨some s, some e, none, none, none⟩ => some (ReleaseKey.tv rn name s e)
          | ⟨none, none, some d, some mo, some y⟩ => some (ReleaseKey.tvDaily rn name d mo y)
          | ⟨none, none, none, none, some y⟩ => some (ReleaseKey.movie rn name y)
          | _ => some (ReleaseKey.base rn name)
        else some (ReleaseKey.base rn name)
    else none

lemma generate_release_key_eq_classifyOutputs (p : Parser) (x : String) :
    generate_release_key p x
      = classifyOutputs (p.normalize x) (p.parse_release (p.normalize x))
          (p.parse_release_info (p.normalize x)) := rfl

/-- The key (unlike the stored raw name) does not depend on the
normalized raw name. -/
lemma classifyOutputs_key_rn_irrelevant (rn rn' : String) (pr : Option String)
    (pri : Except PyError FieldMap) :
    (classifyOutputs rn pr pri).map ReleaseKey.release_key
      = (classifyOutputs rn' pr pri).map ReleaseKey.release_key := by
  cases pr with
  | none => rfl
  | some n0 =>
    by_cases h : strTruthy n0 = true
    · cases pri with
      | error e => simp [classifyOutputs, h, ReleaseKey.release_key]
      | ok m =>
        obtain ⟨s, e, d, mo, y⟩ := m
        cases s <;> cases e <;> cases d <;> cases mo <;> cases y <;>
          simp [classifyOutputs, h, FieldMap.truthy, ReleaseKey.release_key]
    · simp [classifyOutputs, h]

/-- C5: the classifier is deterministic — two invocations on the same
raw name yield equal results — and its key depends only on the parser
collaborator's outputs: two raw names with the same parsed canonical
name and the same extracted field mapping yield equal keys, whatever
the surrounding scene-release decoration left in the raw names. -/
theorem classify_deterministic_parser_output_determined (p : Parser) (x y : String)
    (h1 : p.parse_release (p.normalize x) = p.parse_release (p.normalize y))
    (h2 : p.parse_release_info (p.normalize x) = p.parse_release_info (p.normalize y)) :
    generate_release_key p x = generate_release_key p x ∧
    (generate_release_key p x).map ReleaseKey.release_key
      = (generate_release_key p y).map ReleaseKey.release_key := by
  refine ⟨rfl, ?_⟩
  rw [generate_release_key_eq_classifyOutputs p x,
    generate_release_key_eq_classifyOutputs p y, h1, h2]
  exact classifyOutputs_key_rn_irrelevant _ _ _ _

/-- A parser whose outputs do not depend on the decoration left in the
raw name. -/
def parserDecorationBlind : Parser :=
  ⟨fun s => s, fun _ => some "The.Show",
    fun _ => .ok ⟨some "3", some "9", none, none, none⟩⟩

/-- C5 witness: two differently decorated raw names get equal keys. -/
theorem classify_deterministic_witness :
    (generate_release_key parserDecorationBlind "The.Show.S03E09.720p.HDTV.x264-AAA").map
        ReleaseKey.release_key
      = (generate_release_key parserDecorationBlind "The.Show.S03E09.PROPER.REPACK-BBB").map
        ReleaseKey.release_key :=
  (classify_deterministic_parser_output_determined parserDecorationBlind
    "The.Show.S03E09.720p.HDTV.x264-AAA" "The.Show.S03E09.PROPER.REPACK-BBB"
    rfl rfl).2

/-- C6: when `parse_release_info` raises, the classifier absorbs the
failure (the `except TypeError` arm for a `TypeError`, the
`finally: return` for any other exception) and returns the base variant
built from the canonical name; no error reaches the caller. -/
theorem classify_absorbs_info_failure (p : Parser) (x n0 : String) (err : PyError)
    (hname : p.parse_release (p.normalize x) = some n0)
    (htruthy : strTruthy n0 = true)
    (hinfo : p.parse_release_info (p.normalize x) = .error err) :
    generate_release_key p x = some (ReleaseKey.base (p.normalize x) (pyLower n0)) := by
  simp [generate_release_key, hname, htruthy, hinfo]

/-- A parser whose field extraction raises `TypeError`. -/
def parserRaisingInfo : Parser :=
  ⟨fun s => s, fun _ => some "Show", fun _ => .error .typeError⟩

/-- C6 witness: the raising parser still yields the base variant. -/
theorem classify_absorbs_info_failure_witness :
    generate_release_key parserRaisingInfo "raw5"
      = some (ReleaseKey.base "raw5" "show") :=
  classify_absorbs_info_failure parserRaisingInfo "raw5" "Show" .typeError
    rfl (by decide) rfl

lemma char_isUpper_iff (c : Char) :
    Char.isUpper c = (decide (65 ≤ c.toNat) && decide (c.toNat ≤ 90)) := by
  simp only [Char.isUpper, Char.toNat]
  congr 1

/-- Lowering a character never yields an ASCII uppercase letter. -/
lemma char_isUpper_toLower (c : Char) : (Char.toLower c).isUpper = false := by
  unfold Char.toLower
  by_cases h : c.toNat ≥ 65 ∧ c.toNat ≤ 90
  · simp only [if_pos h]
    obtain ⟨h1, h2⟩ := h
    set n := Char.toNat c with hn
    interval_cases n <;> decide
  · simp only [if_neg h]
    rw [char_isUpper_iff, Bool.and_eq_false_iff]
    rcases Nat.lt_or_ge c.toNat 65 with hl | hr
    · left; simp only [decide_eq_false_iff_not]; omega
    · right; simp only [decide_eq_false_iff_not]; omega

/-- No character of a lowered string is uppercase. -/
lemma pyLower_no_upper (s : String) : ∀ c ∈ (pyLower s).data, c.isUpper = false := by
  intro c hc
  simp only [pyLower, List.mem_map] at hc
  obtain ⟨a, _, rfl⟩ := hc
  exact char_isUpper_toLower a

lemma pyLower_length (s : String) : (pyLower s).length = s.length := by
  cases s with
  | mk l => simp [pyLower, String.length]

lemma string_eq_empty_of_length_zero (s : String) (h : s.length = 0) : s = "" := by
  cases s with
  | mk l =>
    simp only [String.length] at h
    rw [List.length_eq_zero] at h
    rw [h]

/-- Lowering-equal strings agree on Python truthiness. -/
lemma strTruthy_pyLower_congr (a b : String) (h : pyLower a = pyLower b) :
    strTruthy a = strTruthy b := by
  have hlen : a.length = b.length := by
    rw [← pyLower_length a, ← pyLower_length b, h]
  by_cases ha : a = ""
  · subst ha
    have hb : b = "" := string_eq_empty_of_length_zero b (by rw [← hlen]; rfl)
    rw [hb]
  · have hb : b ≠ "" := by
      intro hb
      apply ha
      apply string_eq_empty_of_length_zero
      rw [hlen, hb]
      rfl
    simp [strTruthy, ha, hb]

/-- Keys agree when the parsed names agree up to letter case and the
field mappings agree. -/
lemma classifyOutputs_key_lower_congr (rn rn' n0 n1 : String)
    (pri : Except PyError FieldMap) (hcase : pyLower n0 = pyLower n1) :
    (classifyOutputs rn (some n0) pri).map ReleaseKey.release_key
      = (classifyOutputs rn' (some n1) pri).map ReleaseKey.release_key := by
  have ht := strTruthy_pyLower_congr n0 n1 hcase
  by_cases h : strTruthy n0 = true
  · have h' : strTruthy n1 = true := by rw [← ht]; exact h
    cases pri with
    | error e => simp [classifyOutputs, h, h', hcase, ReleaseKey.release_key]
    | ok m =>
      obtain ⟨s, e, d, mo, y⟩ := m
      cases s <;> cases e <;> cases d <;> cases mo <;> cases y <;>
        simp [classifyOutputs, h, h', hcase, FieldMap.truthy, ReleaseKey.release_key]
  · have h' : ¬ strTruthy n1 = true := by rw [← ht]; exact h
    simp [classifyOutputs, h, h']

/-- C10: the classifier lowercases the parsed canonical name before
constructing any variant, so every successfully classified name stores
the lowered canonical name (hence no ASCII uppercase letter in the
canonical-name portion of the key), and two raw names whose parsed
canonical names differ only in letter case (same field mapping)
produce equal keys. -/
theorem classify_lowercases_canonical (p : Parser) (x y n0 n1 : String)
    (hx : p.parse_release (p.normalize x) = some n0)
    (hy : p.parse_release (p.normalize y) = some n1)
    (hcase : pyLower n0 = pyLower n1)
    (hinfo : p.parse_release_info (p.normalize x) = p.parse_release_info (p.normalize y)) :
    (∀ k, generate_release_key p x = some k →
      k.canonical = pyLower n0 ∧ ∀ c ∈ k.canonical.data, c.isUpper = false) ∧
    (generate_release_key p x).map ReleaseKey.release_key
      = (generate_release_key p y).map ReleaseKey.release_key := by
  constructor
  · intro k hk
    have hcanon : k.canonical = pyLower n0 := by
      rw [generate_release_key_eq_classifyOutputs, hx] at hk
      by_cases h : strTruthy n0 = true
      · cases hpri : p.parse_release_info (p.normalize x) with
        | error e =>
          rw [hpri] at hk
          simp [classifyOutputs, h] at hk
          rw [← hk]
          rfl
        | ok m =>
          rw [hpri] at hk
          obtain ⟨s, e, d, mo, yr⟩ := m
          cases s <;> cases e <;> cases d <;> cases mo <;> cases yr <;>
            · simp [classifyOutputs, h, FieldMap.truthy] at hk
              rw [← hk]
              rfl
      · simp [classifyOutputs, h] at hk
    refine ⟨hcanon, ?_⟩
    rw [hcanon]
    exact pyLower_no_upper n0
  · rw [generate_release_key_eq_classifyOutputs p x,
      generate_release_key_eq_classifyOutputs p y, hx, hy, hinfo]
    exact classifyOutputs_key_lower_congr _ _ _ _ _ hcase

/-- A parser that returns the canonical name with its original casing,
differently decorated per raw name, with the same field mapping. -/
def parserCasePreserving : Parser :=
  ⟨fun s => s,
    fun rn => if rn == "a" then some "THE.Show" else some "the.shOW",
    fun _ => .ok ⟨some "3", some "9", none, none, none⟩⟩

/-- C10 witness: mixed-case parses at two concrete raw names agree on
the key, and the canonical part is the lowered name. -/
theorem classify_lowercases_canonical_witness :
    ((generate_release_key parserCasePreserving "a").map ReleaseKey.release_key
        = (generate_release_key parserCasePreserving "b").map ReleaseKey.release_key) ∧
    (ReleaseKey.tv "a" "the.show" "3" "9").canonical = pyLower "THE.Show" := by
  have h := classify_lowercases_canonical parserCasePreserving "a" "b"
    "THE.Show" "the.shOW" rfl rfl (by decide) rfl
  refine ⟨h.2, ?_⟩
  have h2 := (h.1 (ReleaseKey.tv "a" "the.show" "3" "9") (by decide)).1
  exact h2

/-- C2: with `interval = 60`, `last_update = t0`, `enabled = true`, a
trigger at `t0+30` yields an empty cycle with `last_update` unchanged; a
trigger at `t0+61` passes the gate, advances `last_update` to `t0+61`
independently of (hence before consuming) the fetch result, yields
exactly the fetched items (each paired with the cycle's session), and
no further trigger within the following interval can start a cycle. -/
theorem poll_gate_interval {α σ : Type} (t0 : Int) (sess : σ)
    (fetched : σ → List α) :
    find_matches ⟨true, t0, 60⟩ (t0 + 30) sess fetched = (⟨true, t0, 60⟩, []) ∧
    (find_matches ⟨true, t0, 60⟩ (t0 + 61) sess fetched).1 = ⟨true, t0 + 61, 60⟩ ∧
    (find_matches ⟨true, t0, 60⟩ (t0 + 61) sess fetched).2
      = (fetched sess).map (fun torrent => (torrent, sess)) ∧
    (∀ fetched' : σ → List α,
      (find_matches ⟨true, t0, 60⟩ (t0 + 61) sess fetched').1
        = (find_matches ⟨true, t0, 60⟩ (t0 + 61) sess fetched).1) ∧
    (∀ t2, t2 - (t0 + 61) ≤ 60 →
      find_matches (⟨true, t0 + 61, 60⟩ : ProviderState) t2 sess fetched
        = (⟨true, t0 + 61, 60⟩, [])) := by
  have h30 : ¬ ((t0 + 30 : Int) - t0 > 60) := by omega
  have h61 : ((t0 + 61 : Int) - t0 > 60) := by omega
  refine ⟨?_, ?_, ?_, ?_, ?_⟩
  · simp [find_matches, h30]
  · simp [find_matches, h61]
  · simp [find_matches, h61]
  · intro fetched'
    simp [find_matches, h61]
  · intro t2 ht2
    have hgate : ¬ (t2 - (t0 + 61) > 60) := by omega
    simp [find_matches, hgate]

/-- C2 witness: the gate at concrete times `t0 = 0`, triggers at 30,
61 and then 121 with a three-item fetch. -/
theorem poll_gate_interval_witness :
    find_matches (⟨true, 0, 60⟩ : ProviderState) 30 () (fun _ => [1, 2, 3])
        = (⟨true, 0, 60⟩, []) ∧
    find_matches (⟨true, 0, 60⟩ : ProviderState) 61 () (fun _ => [1, 2, 3])
        = (⟨true, 61, 60⟩, [(1, ()), (2, ()), (3, ())]) ∧
    find_matches (⟨true, 61, 60⟩ : ProviderState) 121 () (fun _ => [1, 2, 3])
        = (⟨true, 61, 60⟩, []) := by
  have h := poll_gate_interval (α := Nat) (σ := Unit) 0 () (fun _ => [1, 2, 3])
  refine ⟨h.1, ?_, ?_⟩
  · have h1 := h.2.1
    have h2 := h.2.2.1
    rw [Prod.ext_iff]
    exact ⟨h1, h2⟩
  · exact h.2.2.2.2 121 (by omega)

/-- C3: the dedup oracle absorbs a raising persistence query, logging
it and returning the falsy `False` (no duplicate found); on success it
returns exactly the recorded downloads whose `release_key` equals the
string form of the given key. -/
theorem dedup_exists_fail_open (key : ReleaseKey) (rows : List Download) (err : PyError) :
    TorrentProvider.dedup_exists (.error err) key = .falseLit ∧
    (ExistsResult.falseLit).falsy = true ∧
    TorrentProvider.dedup_exists (.ok rows) key
      = .found (rows.filter (fun d => d.release_key == key.release_key)) := by
  refine ⟨rfl, rfl, rfl⟩

/-- A second defaultdict read of the same name returns what the first
read left in the slot. -/
lemma cacheLookup_idem (c : SourceCache) (n : String) :
    cacheLookup (cacheLookup c n).2 n = ((cacheLookup c n).1, (cacheLookup c n).2) := by
  unfold cacheLookup
  cases h : c.find? (fun p => p.1 == n) with
  | some p => simp [h]
  | none => simp [h, List.find?_append]

lemma find?_map_store (c : SourceCache) (n : String) (v : CacheVal)
    (h : c.any (fun p => p.1 == n) = true) :
    (c.map (fun p => if p.1 == n then (n, v) else p)).find? (fun p => p.1 == n)
      = some (n, v) := by
  induction c with
  | nil => simp at h
  | cons hd tl ih =>
    simp only [List.map_cons]
    by_cases hhd : hd.1 = n
    · simp [List.find?_cons, hhd]
    · have hne : (hd.1 == n) = false := by simp [hhd]
      rw [List.any_cons] at h
      simp only [hne, Bool.false_or] at h
      simp only [hne, Bool.false_eq_true, if_false]
      rw [List.find?_cons_of_neg _ (by simp [hhd])]
      exact ih h

/-- Reading a name right after writing it returns the written slot. -/
lemma cacheLookup_cacheStore (c : SourceCache) (n : String) (v : CacheVal) :
    cacheLookup (cacheStore c n v) n = (v, cacheStore c n v) := by
  unfold cacheStore
  by_cases h : c.any (fun p => p.1 == n) = true
  · simp only [if_pos h]
    unfold cacheLookup
    rw [find?_map_store c n v h]
  · simp only [if_neg h]
    unfold cacheLookup
    rw [List.find?_append]
    rw [Bool.not_eq_true] at h
    rw [List.any_eq_false] at h
    have hfn : c.find? (fun p => p.1 == n) = none := by
      rw [List.find?_eq_none]
      intro x hx
      simpa using h x hx
    simp [hfn]

/-- After staging a source whose name had no match, a query by that
name finds exactly the staged source. -/
lemma query_first_by_name_add (s : PySession) (src : Source) (n : String)
    (h : query_first_by_name s n = none) (hn : src.source_name = n) :
    query_first_by_name (s.add src) n = some src := by
  unfold query_first_by_name PySession.add at *
  simp only []
  rw [← List.append_assoc, List.find?_append, h]
  simp [hn]

/-- C7: calling `get_source` twice with the same (non-empty) name and
no intervening external write to the persistence collaborator or the
memo returns the identical `Source` instance both times — including
when the first call's query finds nothing, so that a fresh `Source` is
created and staged. -/
theorem get_source_memoized (cache : SourceCache) (alloc : Nat)
    (session : PySession) (name : String) (hname : name ≠ "") :
    ∃ s c1 a1 ses1 c2 a2 ses2,
      get_source cache alloc session (some name) none
          = .ok (.one s, c1, a1, ses1) ∧
        get_source c1 a1 ses1 (some name) none
          = .ok (.one s, c2, a2, ses2) := by
  have htr : optStrTruthy (some name) = true := by
    simp [optStrTruthy, strTruthy, hname]
  cases hv : (cacheLookup cache name).1 with
  | src s =>
    refine ⟨s, (cacheLookup cache name).2, alloc, session,
      (cacheLookup cache name).2, alloc, session, ?_, ?_⟩
    · simp [get_source, htr, hv, CacheVal.toSource]
    · have h2 := cacheLookup_idem cache name
      simp [get_source, htr, h2, hv, CacheVal.toSource]
  | falseV =>
    cases hq : query_first_by_name session name with
    | some s =>
      refine ⟨s, cacheStore (cacheLookup cache name).2 name (.src s), alloc, session,
        cacheStore (cacheLookup cache name).2 name (.src s), alloc, session, ?_, ?_⟩
      · simp [get_source, htr, hv, CacheVal.toSource, hq]
      · have h2 := cacheLookup_cacheStore (cacheLookup cache name).2 name (.src s)
        simp [get_source, htr, h2, CacheVal.toSource]
    | none =>
      refine ⟨⟨alloc, name, none⟩,
        cacheStore (cacheLookup cache name).2 name .noneV, alloc + 1,
        session.add ⟨alloc, name, none⟩, ?_, ?_, ?_, ?_, ?_⟩
      · exact cacheStore (cacheStore (cacheLookup cache name).2 name .noneV)
          name (.src ⟨alloc, name, none⟩)
      · exact alloc + 1
      · exact session.add ⟨alloc, name, none⟩
      · simp [get_source, htr, hv, CacheVal.toSource, hq]
      · have h2 := cacheLookup_cacheStore (cacheLookup cache name).2 name .noneV
        have h3 := query_first_by_name_add session ⟨alloc, name, none⟩ name hq rfl
        simp [get_source, htr, h2, CacheVal.toSource, h3]
  | noneV =>
    cases hq : query_first_by_name session name with
    | some s =>
      refine ⟨s, cacheStore (cacheLookup cache name).2 name (.src s), alloc, session,
        cacheStore (cacheLookup cache name).2 name (.src s), alloc, session, ?_, ?_⟩
      · simp [get_source, htr, hv, CacheVal.toSource, hq]
      · have h2 := cacheLookup_cacheStore (cacheLookup cache name).2 name (.src s)
        simp [get_source, htr, h2, CacheVal.toSource]
    | none =>
      refine ⟨⟨alloc, name, none⟩,
        cacheStore (cacheLookup cache name).2 name .noneV, alloc + 1,
        session.add ⟨alloc, name, none⟩,
        cacheStore (cacheStore (cacheLookup cache name).2 name .noneV)
          name (.src ⟨alloc, name, none⟩),
        alloc + 1, session.add ⟨alloc, name, none⟩, ?_, ?_⟩
      · simp [get_source, htr, hv, CacheVal.toSource, hq]
      · have h2 := cacheLookup_cacheStore (cacheLookup cache name).2 name .noneV
        have h3 := query_first_by_name_add session ⟨alloc, name, none⟩ name hq rfl
        simp [get_source, htr, h2, CacheVal.toSource, h3]

/-- C7 witness: empty cache, empty store, name `"btn"`. -/
theorem get_source_memoized_witness :
    ∃ s c1 a1 ses1 c2 a2 ses2,
      get_source [] 0 ⟨[], []⟩ (some "btn") none
          = .ok (.one s, c1, a1, ses1) ∧
        get_source c1 a1 ses1 (some "btn") none
          = .ok (.one s, c2, a2, ses2) :=
  get_source_memoized [] 0 ⟨[], []⟩ "btn" (by decide)

/-- C8 counterexample: with an empty cache, an empty store and
`source_id = 1` (no name), `get_source` raises `AttributeError` — the
query miss is dereferenced by `cache_source[source.source_name]` — and
not the `ValueError("Invalid source name")` the claim announces. -/
theorem get_source_by_id_miss_counterexample :
    get_source [] 0 ⟨[], []⟩ none (some 1) = .error .attributeError ∧
    get_source [] 0 ⟨[], []⟩ none (some 1)
      ≠ .error (.valueError "Invalid source name") := by
  refine ⟨rfl, ?_⟩
  intro h
  rw [show get_source [] 0 ⟨[], []⟩ none (some 1)
      = Except.error PyError.attributeError from rfl] at h
  simp at h

/-- C8 amended: when the id matches no cached source and no persisted
or staged source, the id-only call fails — but with `AttributeError`
(either a falsy cache slot reached by the scan, which has no
`source_id`, or the `None` query result dereferenced for its
`source_name` when writing the memo), never with the unreachable
`ValueError("Invalid source name")`. -/
theorem get_source_by_id_miss_attribute_error (cache : SourceCache)
    (alloc : Nat) (session : PySession) (i : Int) (hi : i ≠ 0)
    (hq : query_first_by_id session i = none)
    (hc : ∀ s : Source, CacheVal.src s ∈ cache.map (fun p => p.2) →
      s.source_id ≠ some i) :
    get_source cache alloc session none (some i) = .error .attributeError := by
  have htr : optIntTruthy (some i) = true := by
    simp [optIntTruthy, hi]
  have hscan : scanCacheValues (cache.map (fun p => p.2)) i = .ok none ∨
      scanCacheValues (cache.map (fun p => p.2)) i = .error .attributeError := by
    generalize hl : cache.map (fun p => p.2) = l at hc
    clear hl
    induction l with
    | nil => left; rfl
    | cons v rest ih =>
      cases v with
      | falseV => right; rfl
      | noneV => right; rfl
      | src s =>
        have hs : (s.source_id == some i) = false := by
          have := hc s (by simp)
          simp [this]
        have hrest := ih (fun s' hs' => hc s' (List.mem_cons_of_mem _ hs'))
        cases hrest with
        | inl h => left; simp [scanCacheValues, hs, h]
        | inr h => right; simp [scanCacheValues, hs, h]
  cases hscan with
  | inl h => simp [get_source, optStrTruthy, htr, h, hq]
  | inr h => simp [get_source, optStrTruthy, htr, h]

/-- C8 amended witness: a cache holding one non-matching source and a
store with no match for id 7. -/
theorem get_source_by_id_miss_attribute_error_witness :
    get_source [("abc", CacheVal.src ⟨0, "abc", some 2⟩)] 1
        ⟨[⟨5, "xyz", some 3⟩], []⟩ none (some 7) = .error .attributeError :=
  get_source_by_id_miss_attribute_error
    [("abc", CacheVal.src ⟨0, "abc", some 2⟩)] 1 ⟨[⟨5, "xyz", some 3⟩], []⟩ 7
    (by decide) (by decide)
    (by
      intro s hs
      simp only [List.map_cons, List.map_nil, List.mem_singleton,
        CacheVal.src.injEq] at hs
      subst hs
      decide)

/-- C9: for every session and non-empty `release_key` argument,
`fetch_download` never returns normally — its `release_key` branch
reads the nonexistent `query` attribute of the query object it just
built, so it raises `AttributeError` before any filter is applied. -/
theorem fetch_download_release_key_raises (downloads : List Download)
    (rk : String) (hrk : rk ≠ "") (download_id : Option Int)
    (limit : Option Nat) :
    fetch_download downloads (some rk) download_id limit
      = .error .attributeError := by
  have htr : optStrTruthy (some rk) = true := by
    simp [optStrTruthy, strTruthy, hrk]
  simp [fetch_download, htr]

/-- C9 witness: one concrete row, one concrete key. -/
theorem fetch_download_release_key_raises_witness :
    fetch_download [⟨"show-3_9", 1, 100⟩] (some "show-3_9") none none
      = .error .attributeError :=
  fetch_download_release_key_raises [⟨"show-3_9", 1, 100⟩] "show-3_9"
    (by decide) none none
